import Mathlib

/-!
Shallow embedding of the `course_reg` ink! contract (`src/lib.rs`).

Account ids and the 32-byte course ids are modelled as `Nat` (the source
only copies and compares them for equality), timestamps as `Nat`, and the
ink `Mapping` storage primitive as an association list with overwrite-on-
insert semantics. Every contract message becomes a pure function from the
storage struct (plus the caller / block timestamp the ink environment
injects) to a `(result, new storage)` pair, so that error paths which have
already persisted writes are visible in the returned state, exactly as in
the source.
-/

namespace course_reg

abbrev AccountId := Nat

abbrev CourseId := Nat

abbrev Timestamp := Nat

/-- `Course` struct of `src/lib.rs` (lines 16-27). -/
structure Course where
  teacher : AccountId
  course_id : CourseId
  capacity : Nat
  registrations : List AccountId
  start_date : Timestamp
  deriving DecidableEq

/-- `CourseRegistration` token struct of `src/lib.rs` (lines 32-37). -/
structure CourseRegistration where
  owner : AccountId
  course_id : CourseId
  deriving DecidableEq

/-- `CourseRegistrationSwapProposal` struct of `src/lib.rs` (lines 42-47). -/
structure CourseRegistrationSwapProposal where
  offer : CourseRegistration
  counter_offers : List CourseRegistration
  deriving DecidableEq

/-- The ink `Mapping<K, V>` storage primitive, as an association list. -/
abbrev Mapping (K V : Type) := List (K × V)

/-- `Mapping::get`: the value of the first binding of `k`, if any. -/
def Mapping.get {K V : Type} [DecidableEq K] (m : Mapping K V) (k : K) : Option V :=
  match m with
  | [] => none
  | q :: rest => if q.1 = k then some q.2 else Mapping.get rest k

/-- `Mapping::contains`. -/
def Mapping.contains {K V : Type} [DecidableEq K] (m : Mapping K V) (k : K) : Bool :=
  (Mapping.get m k).isSome

/-- `Mapping::insert`: overwrite the binding of `k` (or append a new one). -/
def Mapping.insert {K V : Type} [DecidableEq K] (m : Mapping K V) (k : K) (v : V) :
    Mapping K V :=
  match m with
  | [] => [(k, v)]
  | q :: rest => if q.1 = k then (k, v) :: rest else q :: Mapping.insert rest k v

/-- Contract storage struct `CourseReg` of `src/lib.rs` (lines 52-63). -/
structure CourseReg where
  owner : AccountId
  school_members : Mapping AccountId Bool
  courses : Mapping CourseId Course
  swaps : Mapping CourseId (List CourseRegistrationSwapProposal)
  registrations : Mapping AccountId (List CourseRegistration)
  deriving DecidableEq

/-- `Error` enum of `src/lib.rs` (lines 67-76). -/
inductive Error where
  | InsufficientPermissions
  | NonexistentCourse
  | CourseCapacityFull
  | AlreadyRegistered
  | NoRegistrations
  | CourseAlreadyStarted
  | NoSwappableRegistrations
  | NoProposedSwap
  deriving DecidableEq

instance {ε α : Type} [DecidableEq ε] [DecidableEq α] : DecidableEq (Except ε α) :=
  fun x y =>
    match x, y with
    | .ok a, .ok b =>
      if h : a = b then .isTrue (congrArg Except.ok h)
      else .isFalse (fun hc => h (Except.ok.inj hc))
    | .error a, .error b =>
      if h : a = b then .isTrue (congrArg Except.error h)
      else .isFalse (fun hc => h (Except.error.inj hc))
    | .ok _, .error _ => .isFalse (fun hc => Except.noConfusion hc)
    | .error _, .ok _ => .isFalse (fun hc => Except.noConfusion hc)

/-- `Vec::position` followed by `Vec::remove` at the found index: returns the
first element satisfying `p` together with the list without it. -/
def positionRemove {α : Type} (p : α → Bool) : List α → Option (α × List α)
  | [] => none
  | x :: xs =>
    if p x then some (x, xs)
    else (positionRemove p xs).map (fun r => (r.1, x :: r.2))

/-- `Vec::position` followed by an in-place update at the found index: returns
the list with the first element satisfying `p` replaced by its image under `f`. -/
def positionModify {α : Type} (p : α → Bool) (f : α → α) : List α → Option (List α)
  | [] => none
  | x :: xs =>
    if p x then some (f x :: xs)
    else (positionModify p f xs).map (fun r => x :: r)

/-- Constructor `new(owner)` (`src/lib.rs` lines 82-87): all mappings start
empty (`SpreadAllocate`), then the owner is inserted as a teacher member. -/
def CourseReg.new (owner : AccountId) : CourseReg :=
  { owner := owner
    school_members := Mapping.insert [] owner true
    courses := []
    swaps := []
    registrations := [] }

/-- `is_owner` (`src/lib.rs` lines 392-395). -/
def CourseReg.is_owner (s : CourseReg) (caller : AccountId) : Bool :=
  caller = s.owner

/-- `is_school_member_inner` (`src/lib.rs` lines 125-127). -/
def CourseReg.is_school_member_inner (s : CourseReg) (account : AccountId) : Bool :=
  Mapping.contains s.school_members account

/-- `is_teacher_inner` (`src/lib.rs` lines 135-137). -/
def CourseReg.is_teacher_inner (s : CourseReg) (account : AccountId) : Bool :=
  (Mapping.get s.school_members account).getD false

/-- `admit_as_teacher` (`src/lib.rs` lines 101-107). -/
def CourseReg.admit_as_teacher (s : CourseReg) (caller account : AccountId) :
    Except Error Unit × CourseReg :=
  if !(s.is_owner caller) then (.error .InsufficientPermissions, s)
  else (.ok (), { s with school_members := Mapping.insert s.school_members account true })

/-- `admit_as_student` (`src/lib.rs` lines 111-117). -/
def CourseReg.admit_as_student (s : CourseReg) (caller account : AccountId) :
    Except Error Unit × CourseReg :=
  if !(s.is_owner caller) then (.error .InsufficientPermissions, s)
  else (.ok (), { s with school_members := Mapping.insert s.school_members account false })

/-- `create_course` (`src/lib.rs` lines 141-158). -/
def CourseReg.create_course (s : CourseReg) (caller : AccountId) (course_id : CourseId)
    (course_cap : Nat) (course_start : Timestamp) : Except Error Unit × CourseReg :=
  if !(s.is_teacher_inner caller) then (.error .InsufficientPermissions, s)
  else
    let course : Course :=
      { teacher := caller
        capacity := course_cap
        course_id := course_id
        start_date := course_start
        registrations := [] }
    (.ok (), { s with courses := Mapping.insert s.courses course_id course })

/-- `add_registration` (`src/lib.rs` lines 193-204). -/
def CourseReg.add_registration (s : CourseReg) (course_id : CourseId)
    (owner : AccountId) : CourseReg :=
  let course_reg : CourseRegistration := { owner := owner, course_id := course_id }
  match Mapping.get s.registrations owner with
  | none =>
    { s with registrations := Mapping.insert s.registrations owner [course_reg] }
  | some registrations =>
    { s with registrations :=
        Mapping.insert s.registrations owner (registrations.concat course_reg) }

/-- `register_to_course` (`src/lib.rs` lines 165-189); `now` is the block
timestamp the ink environment supplies. -/
def CourseReg.register_to_course (s : CourseReg) (caller : AccountId) (now : Timestamp)
    (course_id : CourseId) : Except Error Unit × CourseReg :=
  if !(s.is_school_member_inner caller) then (.error .InsufficientPermissions, s)
  else
    match Mapping.get s.courses course_id with
    | none => (.error .NonexistentCourse, s)
    | some course =>
      if course.capacity ≤ course.registrations.length then (.error .CourseCapacityFull, s)
      else if caller ∈ course.registrations then (.error .AlreadyRegistered, s)
      else if course.start_date ≤ now then (.error .CourseAlreadyStarted, s)
      else
        let course2 := { course with registrations := course.registrations.concat caller }
        let s2 := { s with courses := Mapping.insert s.courses course_id course2 }
        (.ok (), s2.add_registration course_id caller)

/-- `get_own_registrations` (`src/lib.rs` lines 208-216): read-only. -/
def CourseReg.get_own_registrations (s : CourseReg) (caller : AccountId) :
    Except Error (List CourseRegistration) :=
  match Mapping.get s.registrations caller with
  | none => .error .NoRegistrations
  | some registrations =>
    if registrations.length = 0 then .error .NoRegistrations
    else .ok registrations

/-- `get_course_info` (`src/lib.rs` lines 220-225): read-only. -/
def CourseReg.get_course_info (s : CourseReg) (course_id : CourseId) :
    Except Error Course :=
  match Mapping.get s.courses course_id with
  | none => .error .NonexistentCourse
  | some course => .ok course

/-- `add_proposal` (`src/lib.rs` lines 254-264). -/
def CourseReg.add_proposal (s : CourseReg) (course_id : CourseId)
    (proposal : CourseRegistrationSwapProposal) : CourseReg :=
  match Mapping.get s.swaps course_id with
  | none => { s with swaps := Mapping.insert s.swaps course_id [proposal] }
  | some swaps => { s with swaps := Mapping.insert s.swaps course_id (swaps.concat proposal) }

/-- `propose_swap` (`src/lib.rs` lines 229-250). -/
def CourseReg.propose_swap (s : CourseReg) (caller : AccountId) (course_id : CourseId) :
    Except Error Unit × CourseReg :=
  match Mapping.get s.registrations caller with
  | none => (.error .NoSwappableRegistrations, s)
  | some registrations =>
    match positionRemove (fun x => decide (x.course_id = course_id)) registrations with
    | none => (.error .NoSwappableRegistrations, s)
    | some (course, registrations2) =>
      let s2 := { s with registrations := Mapping.insert s.registrations caller registrations2 }
      let proposal : CourseRegistrationSwapProposal := { offer := course, counter_offers := [] }
      (.ok (), s2.add_proposal course_id proposal)

/-- `get_proposed_swaps` (`src/lib.rs` lines 268-277): read-only. -/
def CourseReg.get_proposed_swaps (s : CourseReg) (course_id : CourseId) :
    Except Error (List CourseRegistrationSwapProposal) :=
  match Mapping.get s.swaps course_id with
  | none => .error .NoProposedSwap
  | some swaps =>
    if swaps.length = 0 then .error .NoProposedSwap
    else .ok swaps

/-- `counter_swap_proposal` (`src/lib.rs` lines 281-324). Note the caller's
registration list is written back (escrow persisted) before the proposal
lookup; the later error returns therefore carry the mutated state. -/
def CourseReg.counter_swap_proposal (s : CourseReg) (caller : AccountId)
    (course_id : CourseId) (offerer : AccountId) (counter_course_id : CourseId) :
    Except Error Unit × CourseReg :=
  match s.get_own_registrations caller with
  | .error _ => (.error .NoProposedSwap, s)
  | .ok caller_regs =>
    match positionRemove (fun reg => decide (reg.course_id = counter_course_id)) caller_regs with
    | none => (.error .NoProposedSwap, s)
    | some (exchange_course, caller_regs2) =>
      let s2 := { s with registrations := Mapping.insert s.registrations caller caller_regs2 }
      match Mapping.get s2.swaps course_id with
      | none => (.error .NoProposedSwap, s2)
      | some proposals =>
        match positionModify (fun prop => decide (prop.offer.owner = offerer))
            (fun prop =>
              { prop with counter_offers := prop.counter_offers.concat exchange_course })
            proposals with
        | none => (.error .NoProposedSwap, s2)
        | some proposals2 =>
          (.ok (), { s2 with swaps := Mapping.insert s2.swaps course_id proposals2 })

/-- `replace_registration_in_reg_list` (`src/lib.rs` lines 376-389). The
source updates `replace_in.registrations[i]` on a local copy obtained from
`Mapping::get` and never calls `courses.insert`, so the stored course is
unchanged on every path; the computed list is bound here and dropped, as in
the source. -/
def CourseReg.replace_registration_in_reg_list (s : CourseReg) (course_id : CourseId)
    (replaceAcc withAcc : AccountId) : Except Error Unit × CourseReg :=
  match Mapping.get s.courses course_id with
  | none => (.error .NoProposedSwap, s)
  | some replace_in =>
    match positionModify (fun acc_id => decide (acc_id = replaceAcc)) (fun _ => withAcc)
        replace_in.registrations with
    | none => (.error .NoProposedSwap, s)
    | some _updated => (.ok (), s)

/-- `accept_counter_offer` (`src/lib.rs` lines 328-374). The caller's proposal
is removed and the removal persisted (line 348) before its counter-offers are
searched. -/
def CourseReg.accept_counter_offer (s : CourseReg) (caller : AccountId)
    (offered_course_id accepted_course_id : CourseId) (accepted_owner : AccountId) :
    Except Error Unit × CourseReg :=
  match Mapping.get s.swaps offered_course_id with
  | none => (.error .NoProposedSwap, s)
  | some proposals =>
    match positionRemove (fun prop => decide (prop.offer.owner = caller)) proposals with
    | none => (.error .NoProposedSwap, s)
    | some (found_prop, proposals2) =>
      let s2 := { s with swaps := Mapping.insert s.swaps offered_course_id proposals2 }
      match positionRemove
          (fun c => decide (c.owner = accepted_owner ∧ c.course_id = accepted_course_id))
          found_prop.counter_offers with
      | none => (.error .NoProposedSwap, s2)
      | some (found_counter, _rest) =>
        if found_counter.owner ≠ accepted_owner then (.error .NoProposedSwap, s2)
        else
          let s3 := (s2.add_registration accepted_course_id caller).add_registration
            offered_course_id found_counter.owner
          match s3.replace_registration_in_reg_list accepted_course_id accepted_owner caller with
          | (.error e, s4) => (.error e, s4)
          | (.ok _, s4) => s4.replace_registration_in_reg_list offered_course_id caller accepted_owner

/-- Sum of `f` over all values bound in the map. -/
def mapSize {K V : Type} (m : Mapping K V) (f : V → Nat) : Nat :=
  (m.map (fun q => f q.2)).sum

/-- Tokens held inside one swap proposal: the offer plus its counter-offers. -/
def proposalSize (p : CourseRegistrationSwapProposal) : Nat :=
  1 + p.counter_offers.length

/-- Total number of `CourseRegistration` tokens existing anywhere in the
contract state: in the registrations ledger plus escrowed in proposals
(offers and counter-offers). -/
def totalTokens (s : CourseReg) : Nat :=
  mapSize s.registrations List.length
    + mapSize s.swaps (fun props => (props.map proposalSize).sum)

/-- Number of occurrences of one specific token value anywhere in the state. -/
def tokenCount (s : CourseReg) (t : CourseRegistration) : Nat :=
  mapSize s.registrations (fun l => l.count t)
    + mapSize s.swaps (fun props =>
        (props.map (fun p =>
          (if p.offer = t then 1 else 0) + p.counter_offers.count t)).sum)

def c6full : CourseReg := ⟨0, [(0, true)], [(10, ⟨0, 10, 0, [], 100⟩)], [], []⟩

def c6reg : CourseReg := ⟨0, [(0, true)], [(10, ⟨0, 10, 5, [0], 100⟩)], [], []⟩

def c6start : CourseReg := ⟨0, [(0, true)], [(10, ⟨0, 10, 5, [], 100⟩)], [], []⟩

/-- `accept_counter_offer` with the defensive owner re-check of
`src/lib.rs` lines 360-362 removed; used to state that the check is dead. -/
def CourseReg.accept_counter_offer_unchecked (s : CourseReg) (caller : AccountId)
    (offered_course_id accepted_course_id : CourseId) (accepted_owner : AccountId) :
    Except Error Unit × CourseReg :=
  match Mapping.get s.swaps offered_course_id with
  | none => (.error .NoProposedSwap, s)
  | some proposals =>
    match positionRemove (fun prop => decide (prop.offer.owner = caller)) proposals with
    | none => (.error .NoProposedSwap, s)
    | some (found_prop, proposals2) =>
      let s2 := { s with swaps := Mapping.insert s.swaps offered_course_id proposals2 }
      match positionRemove
          (fun c => decide (c.owner = accepted_owner ∧ c.course_id = accepted_course_id))
          found_prop.counter_offers with
      | none => (.error .NoProposedSwap, s2)
      | some (found_counter, _rest) =>
        let s3 := (s2.add_registration accepted_course_id caller).add_registration
          offered_course_id found_counter.owner
        match s3.replace_registration_in_reg_list accepted_course_id accepted_owner caller with
        | (.error e, s4) => (.error e, s4)
        | (.ok _, s4) => s4.replace_registration_in_reg_list offered_course_id caller accepted_owner

def c4state : CourseReg := ⟨0, [(2, false)], [], [], [(2, [⟨2, 20⟩])]⟩

def c3s0 : CourseReg := CourseReg.new 0

def c3s1 : CourseReg := ((((c3s0.admit_as_student 0 2).2.admit_as_student 0 3).2.create_course
  0 10 10 100).2.create_course 0 11 10 100).2

def c3s2 : CourseReg := ((c3s1.register_to_course 2 0 10).2.register_to_course 3 0 11).2

def c3s3 : CourseReg := ((c3s2.propose_swap 2 10).2.counter_swap_proposal 3 10 2 11).2

def c3final : Except Error Unit × CourseReg := c3s3.accept_counter_offer 2 10 11 3

/-- One state-mutating contract call, with arbitrary caller / arguments /
block timestamp, whether it returns `Ok` or an error. -/
inductive Step : CourseReg → CourseReg → Prop where
  | admit_teacher (s : CourseReg) (caller account : AccountId) :
      Step s (s.admit_as_teacher caller account).2
  | admit_student (s : CourseReg) (caller account : AccountId) :
      Step s (s.admit_as_student caller account).2
  | create (s : CourseReg) (caller : AccountId) (course_id : CourseId)
      (cap : Nat) (start : Timestamp) :
      Step s (s.create_course caller course_id cap start).2
  | register (s : CourseReg) (caller : AccountId) (now : Timestamp) (course_id : CourseId) :
      Step s (s.register_to_course caller now course_id).2
  | propose (s : CourseReg) (caller : AccountId) (course_id : CourseId) :
      Step s (s.propose_swap caller course_id).2
  | counter (s : CourseReg) (caller : AccountId) (course_id : CourseId)
      (offerer : AccountId) (counter_course_id : CourseId) :
      Step s (s.counter_swap_proposal caller course_id offerer counter_course_id).2
  | accept (s : CourseReg) (caller : AccountId) (oc ac : CourseId) (ao : AccountId) :
      Step s (s.accept_counter_offer caller oc ac ao).2

/-- States reachable from a freshly constructed contract by any sequence of
contract calls. -/
inductive Reachable : CourseReg → Prop where
  | init (owner : AccountId) : Reachable (CourseReg.new owner)
  | step {s t : CourseReg} : Reachable s → Step s t → Reachable t

/-- Every course binding in the store has a roster within capacity and
without duplicates. -/
def CoursesOk (s : CourseReg) : Prop :=
  ∀ q ∈ s.courses, (q.2 : Course).registrations.length ≤ q.2.capacity ∧
    q.2.registrations.Nodup

def c2w : CourseReg :=
  ⟨0, [(1, false), (2, false)],
    [(10, ⟨0, 10, 5, [1], 100⟩), (11, ⟨0, 11, 5, [2], 100⟩)], [],
    [(1, [⟨1, 10⟩]), (2, [⟨2, 11⟩])]⟩

def c2w2 : CourseReg := (c2w.propose_swap 1 10).2

def c2w3 : CourseReg := (c2w2.counter_swap_proposal 2 10 1 11).2

def c2cex : CourseReg := ⟨0, [(2, false)], [], [], [(2, [⟨2, 20⟩])]⟩

def c1w : CourseReg :=
  ⟨0, [], [(10, ⟨0, 10, 5, [1], 100⟩), (11, ⟨0, 11, 5, [2], 100⟩)], [],
    [(1, [⟨1, 10⟩]), (2, [⟨2, 11⟩])]⟩

def c5w1 : CourseReg := ⟨0, [], [], [(10, [⟨⟨1, 10⟩, []⟩])], []⟩

def c5w2 : CourseReg :=
  ⟨0, [], [(10, ⟨0, 10, 5, [1], 100⟩), (11, ⟨0, 11, 5, [2], 100⟩)],
    [(10, [⟨⟨1, 10⟩, [⟨2, 11⟩, ⟨3, 11⟩]⟩])], [(3, [⟨3, 12⟩])]⟩

def c5a : CourseReg := CourseReg.new 0

def c5b : CourseReg := ((((c5a.admit_as_student 0 1).2.admit_as_student 0 2
  ).2.admit_as_student 0 3).2.admit_as_student 0 4).2

def c5c : CourseReg := (((c5b.create_course 0 10 10 100).2.create_course 0 11 10 100
  ).2.create_course 0 12 10 100).2

def c5d : CourseReg := ((((c5c.register_to_course 1 0 10).2.register_to_course 2 0 11
  ).2.register_to_course 3 0 11).2.register_to_course 3 0 12).2

def c5e : CourseReg := (c5d.propose_swap 1 10).2

def c5f : CourseReg := ((c5e.counter_swap_proposal 2 10 1 11
  ).2.counter_swap_proposal 3 10 1 11).2

def c5g : CourseReg := (c5f.accept_counter_offer 1 10 11 2).2

def c5h : CourseReg := (c5g.propose_swap 3 12).2

def c5i : CourseReg := (c5h.register_to_course 4 0 11).2

def c5j : CourseReg := (c5i.counter_swap_proposal 4 12 3 11).2

def c5k : CourseReg := (c5j.accept_counter_offer 3 12 11 4).2

/-! ### Lemmas, claim theorems, witnesses and counterexamples -/

theorem Mapping.get_insert {K V : Type} [DecidableEq K] (m : Mapping K V) (k k2 : K) (v : V) :
    Mapping.get (Mapping.insert m k v) k2 = if k2 = k then some v else Mapping.get m k2 := by
  induction m with
  | nil =>
    by_cases h : k2 = k
    · subst h; simp [Mapping.insert, Mapping.get]
    · have h' : ¬(k = k2) := fun hh => h hh.symm
      simp [Mapping.insert, Mapping.get, h, h']
  | cons q rest ih =>
    obtain ⟨a, b⟩ := q
    by_cases hq : a = k
    · subst hq
      by_cases h : k2 = a
      · subst h; simp [Mapping.insert, Mapping.get]
      · have h' : ¬(a = k2) := fun hh => h hh.symm
        simp [Mapping.insert, Mapping.get, h, h']
    · by_cases h2 : a = k2
      · subst h2
        simp [Mapping.insert, Mapping.get, hq]
      · simp [Mapping.insert, Mapping.get, hq, h2, ih]

theorem Mapping.get_mem {K V : Type} [DecidableEq K] {m : Mapping K V} {k : K} {v : V}
    (h : Mapping.get m k = some v) : (k, v) ∈ m := by
  induction m with
  | nil => simp [Mapping.get] at h
  | cons q rest ih =>
    obtain ⟨a, b⟩ := q
    by_cases hq : a = k
    · subst hq
      simp [Mapping.get] at h
      simp [h]
    · simp [Mapping.get, hq] at h
      exact List.mem_cons_of_mem _ (ih h)

theorem Mapping.mem_insert {K V : Type} [DecidableEq K] {m : Mapping K V} {k : K} {v : V}
    {q : K × V} (h : q ∈ Mapping.insert m k v) : q = (k, v) ∨ q ∈ m := by
  induction m with
  | nil => simp [Mapping.insert] at h; exact Or.inl h
  | cons p rest ih =>
    by_cases hp : p.1 = k
    · simp [Mapping.insert, hp] at h
      rcases h with h | h
      · exact Or.inl h
      · exact Or.inr (List.mem_cons_of_mem _ h)
    · simp [Mapping.insert, hp] at h
      rcases h with h | h
      · exact Or.inr (by simp [h])
      · rcases ih h with h2 | h2
        · exact Or.inl h2
        · exact Or.inr (List.mem_cons_of_mem _ h2)

theorem positionRemove_eq_none {α : Type} {p : α → Bool} {l : List α} :
    positionRemove p l = none ↔ ∀ x ∈ l, p x = false := by
  induction l with
  | nil => simp [positionRemove]
  | cons x xs ih =>
    cases hpx : p x with
    | true => simp [positionRemove, hpx]
    | false => simp [positionRemove, hpx, ih]

theorem positionRemove_eq_some {α : Type} {p : α → Bool} {l : List α} {x : α} {r : List α}
    (h : positionRemove p l = some (x, r)) :
    ∃ l1 l2, l = l1 ++ x :: l2 ∧ r = l1 ++ l2 ∧ p x = true ∧ ∀ y ∈ l1, p y = false := by
  induction l generalizing x r with
  | nil => simp [positionRemove] at h
  | cons a xs ih =>
    cases hpa : p a with
    | true =>
      simp [positionRemove, hpa] at h
      obtain ⟨h1, h2⟩ := h
      exact ⟨[], xs, by simp [h1], by simp [h2], h1 ▸ hpa, by simp⟩
    | false =>
      cases hrec : positionRemove p xs with
      | none => simp [positionRemove, hpa, hrec] at h
      | some yr =>
        obtain ⟨y, rs⟩ := yr
        simp [positionRemove, hpa, hrec] at h
        obtain ⟨hx, hr⟩ := h
        obtain ⟨l1, l2, hl, hrr, hp, hall⟩ := ih hrec
        refine ⟨a :: l1, l2, ?_, ?_, ?_, ?_⟩
        · simp [hl, ← hx]
        · simp [← hr, hrr]
        · exact hx ▸ hp
        · intro z hz
          rcases List.mem_cons.mp hz with h2 | h2
          · exact h2 ▸ hpa
          · exact hall z h2

theorem positionModify_eq_none {α : Type} {p : α → Bool} {f : α → α} {l : List α} :
    positionModify p f l = none ↔ ∀ x ∈ l, p x = false := by
  induction l with
  | nil => simp [positionModify]
  | cons x xs ih =>
    cases hpx : p x with
    | true => simp [positionModify, hpx]
    | false => simp [positionModify, hpx, ih]

theorem positionModify_eq_some {α : Type} {p : α → Bool} {f : α → α} {l l' : List α}
    (h : positionModify p f l = some l') :
    ∃ l1 x l2, l = l1 ++ x :: l2 ∧ l' = l1 ++ f x :: l2 ∧ p x = true ∧ ∀ y ∈ l1, p y = false := by
  induction l generalizing l' with
  | nil => simp [positionModify] at h
  | cons a xs ih =>
    cases hpa : p a with
    | true =>
      simp [positionModify, hpa] at h
      exact ⟨[], a, xs, by simp, by simp [← h], hpa, by simp⟩
    | false =>
      simp [positionModify, hpa] at h
      obtain ⟨rs, hrec, hr⟩ := h
      obtain ⟨l1, x, l2, hl, hrr, hp, hall⟩ := ih hrec
      refine ⟨a :: l1, x, l2, by simp [hl], by simp [← hr, hrr], hp, ?_⟩
      intro y hy
      rcases List.mem_cons.mp hy with h2 | h2
      · exact h2 ▸ hpa
      · exact hall y h2

theorem mapSize_insert_none {K V : Type} [DecidableEq K] {m : Mapping K V} {k : K}
    (v : V) (f : V → Nat) (h : Mapping.get m k = none) :
    mapSize (Mapping.insert m k v) f = mapSize m f + f v := by
  induction m with
  | nil => simp [Mapping.insert, mapSize]
  | cons q rest ih =>
    obtain ⟨a, b⟩ := q
    by_cases hq : a = k
    · subst hq; simp [Mapping.get] at h
    · simp [Mapping.get, hq] at h
      have ih2 := ih h
      simp [Mapping.insert, mapSize, hq] at ih2 ⊢
      omega

theorem mapSize_insert_some {K V : Type} [DecidableEq K] {m : Mapping K V} {k : K}
    (v : V) {w : V} (f : V → Nat) (h : Mapping.get m k = some w) :
    mapSize (Mapping.insert m k v) f + f w = mapSize m f + f v := by
  induction m with
  | nil => simp [Mapping.get] at h
  | cons q rest ih =>
    obtain ⟨a, b⟩ := q
    by_cases hq : a = k
    · subst hq
      simp [Mapping.get] at h
      subst h
      simp [Mapping.insert, mapSize]
      omega
    · simp [Mapping.get, hq] at h
      have ih2 := ih h
      simp [Mapping.insert, mapSize, hq] at ih2 ⊢
      omega

theorem replace_registration_preserves_state (s : CourseReg) (course_id : CourseId)
    (a b : AccountId) : (s.replace_registration_in_reg_list course_id a b).2 = s := by
  simp only [CourseReg.replace_registration_in_reg_list]
  repeat' split
  all_goals rfl

theorem add_registration_courses (s : CourseReg) (course_id : CourseId) (o : AccountId) :
    (s.add_registration course_id o).courses = s.courses := by
  simp only [CourseReg.add_registration]
  split
  all_goals rfl

theorem add_proposal_courses (s : CourseReg) (course_id : CourseId)
    (p : CourseRegistrationSwapProposal) : (s.add_proposal course_id p).courses = s.courses := by
  simp only [CourseReg.add_proposal]
  split
  all_goals rfl

theorem admit_as_teacher_courses (s : CourseReg) (c a : AccountId) :
    ((s.admit_as_teacher c a).2).courses = s.courses := by
  simp only [CourseReg.admit_as_teacher]
  split
  all_goals rfl

theorem admit_as_student_courses (s : CourseReg) (c a : AccountId) :
    ((s.admit_as_student c a).2).courses = s.courses := by
  simp only [CourseReg.admit_as_student]
  split
  all_goals rfl

theorem propose_swap_courses (s : CourseReg) (caller : AccountId) (course_id : CourseId) :
    ((s.propose_swap caller course_id).2).courses = s.courses := by
  simp only [CourseReg.propose_swap]
  repeat' split
  all_goals simp [add_proposal_courses]

theorem counter_swap_proposal_courses (s : CourseReg) (caller : AccountId)
    (course_id : CourseId) (offerer : AccountId) (counter_course_id : CourseId) :
    ((s.counter_swap_proposal caller course_id offerer counter_course_id).2).courses
      = s.courses := by
  simp only [CourseReg.counter_swap_proposal]
  repeat' split
  all_goals rfl

theorem accept_counter_offer_courses (s : CourseReg) (caller : AccountId)
    (oc ac : CourseId) (ao : AccountId) :
    ((s.accept_counter_offer caller oc ac ao).2).courses = s.courses := by
  simp only [CourseReg.accept_counter_offer]
  cases hs : Mapping.get s.swaps oc with
  | none => rfl
  | some proposals =>
    dsimp only
    cases hp : positionRemove (fun prop => decide (prop.offer.owner = caller)) proposals with
    | none => rfl
    | some pr =>
      obtain ⟨fp, ps2⟩ := pr
      dsimp only
      cases hc : positionRemove (fun c => decide (c.owner = ao ∧ c.course_id = ac))
          fp.counter_offers with
      | none => rfl
      | some fc =>
        obtain ⟨fcounter, rest⟩ := fc
        dsimp only
        by_cases how : fcounter.owner ≠ ao
        · rw [if_pos how]
        · rw [if_neg how]
          split
          all_goals rename_i s4 heq
          · have h5 := (replace_registration_preserves_state _ ac ao caller).symm.trans
              (congrArg Prod.snd heq)
            dsimp only at h5 ⊢
            rw [← h5]
            simp [add_registration_courses]
          · have h5 := (replace_registration_preserves_state _ ac ao caller).symm.trans
              (congrArg Prod.snd heq)
            dsimp only at h5
            rw [replace_registration_preserves_state]
            rw [← h5]
            simp [add_registration_courses]

theorem positionRemove_length {α : Type} {p : α → Bool} {l : List α} {x : α}
    {r : List α} (h : positionRemove p l = some (x, r)) : r.length + 1 = l.length := by
  obtain ⟨l1, l2, hl, hr, -, -⟩ := positionRemove_eq_some h
  subst hl
  subst hr
  simp only [List.length_append, List.length_cons]
  omega

theorem positionRemove_sum {α : Type} {p : α → Bool} {l : List α} {x : α} {r : List α}
    (f : α → Nat) (h : positionRemove p l = some (x, r)) :
    (r.map f).sum + f x = (l.map f).sum := by
  obtain ⟨l1, l2, hl, hr, -, -⟩ := positionRemove_eq_some h
  subst hl
  subst hr
  simp only [List.map_append, List.sum_append, List.map_cons, List.sum_cons]
  omega

theorem positionRemove_countP {α : Type} {p : α → Bool} {l : List α} {x : α}
    {r : List α} (h : positionRemove p l = some (x, r)) :
    r.countP p + 1 = l.countP p := by
  obtain ⟨l1, l2, hl, hr, hx, -⟩ := positionRemove_eq_some h
  subst hl
  subst hr
  simp [List.countP_append, List.countP_cons, hx]
  omega

theorem get_own_registrations_ok {s : CourseReg} {caller : AccountId}
    {regs : List CourseRegistration} (h : s.get_own_registrations caller = .ok regs) :
    Mapping.get s.registrations caller = some regs := by
  unfold CourseReg.get_own_registrations at h
  cases hg : Mapping.get s.registrations caller with
  | none => rw [hg] at h; simp at h
  | some l =>
    rw [hg] at h
    dsimp only at h
    split at h
    · simp at h
    · simp at h
      simp [h]

theorem totalTokens_add_registration (s : CourseReg) (course_id : CourseId)
    (o : AccountId) : totalTokens (s.add_registration course_id o) = totalTokens s + 1 := by
  simp only [CourseReg.add_registration]
  cases hg : Mapping.get s.registrations o with
  | none =>
    simp only [totalTokens]
    rw [mapSize_insert_none _ _ hg]
    simp only [List.length_cons, List.length_nil]
    omega
  | some regs =>
    have h2 := mapSize_insert_some
      (regs.concat { owner := o, course_id := course_id }) List.length hg
    simp only [List.length_concat] at h2
    simp only [totalTokens]
    omega

theorem totalTokens_add_proposal (s : CourseReg) (course_id : CourseId)
    (p : CourseRegistrationSwapProposal) :
    totalTokens (s.add_proposal course_id p) = totalTokens s + proposalSize p := by
  simp only [CourseReg.add_proposal]
  cases hg : Mapping.get s.swaps course_id with
  | none =>
    simp only [totalTokens]
    rw [mapSize_insert_none _ _ hg]
    simp only [List.map_cons, List.map_nil, List.sum_cons, List.sum_nil]
    omega
  | some props =>
    have h2 := mapSize_insert_some (props.concat p)
      (fun pr => (pr.map proposalSize).sum) hg
    simp only [List.concat_eq_append, List.map_append, List.sum_append, List.map_cons,
      List.map_nil, List.sum_cons, List.sum_nil] at h2
    simp only [totalTokens, List.concat_eq_append]
    omega

theorem positionModify_concat_sum {offerer : AccountId} {ex : CourseRegistration}
    {proposals proposals2 : List CourseRegistrationSwapProposal}
    (hmod : positionModify (fun prop => decide (prop.offer.owner = offerer))
      (fun prop => { prop with counter_offers := prop.counter_offers.concat ex })
      proposals = some proposals2) :
    (proposals2.map proposalSize).sum = (proposals.map proposalSize).sum + 1 := by
  obtain ⟨l1, x, l2, hl, hl2, -, -⟩ := positionModify_eq_some hmod
  subst hl
  subst hl2
  simp only [List.map_append, List.sum_append, List.map_cons, List.sum_cons,
    proposalSize, List.concat_eq_append, List.length_append, List.length_cons,
    List.length_nil]
  omega

/-- Evaluation of `accept_counter_offer` on the success path: once the
proposal and the matching counter-offer are found, the returned state is
always the proposal-removal plus the two mints (the roster-replacement calls
never change the state), and the result is determined by the two
roster-replacement results. -/
theorem accept_eval (s s3 : CourseReg) (caller ao : AccountId) (oc ac : CourseId)
    (proposals ps2 : List CourseRegistrationSwapProposal)
    (fp : CourseRegistrationSwapProposal) (fc : CourseRegistration)
    (rest : List CourseRegistration)
    (hs3 : s3 = (({ s with swaps := Mapping.insert s.swaps oc ps2 }).add_registration
        ac caller).add_registration oc fc.owner)
    (hs : Mapping.get s.swaps oc = some proposals)
    (hp : positionRemove (fun prop => decide (prop.offer.owner = caller)) proposals
      = some (fp, ps2))
    (hc : positionRemove (fun c => decide (c.owner = ao ∧ c.course_id = ac))
      fp.counter_offers = some (fc, rest)) :
    s.accept_counter_offer caller oc ac ao =
      ((match (s3.replace_registration_in_reg_list ac ao caller).1 with
        | .error e => .error e
        | .ok _ => (s3.replace_registration_in_reg_list oc caller ao).1), s3) := by
  obtain ⟨l1, l2, -, -, hpred, -⟩ := positionRemove_eq_some hc
  simp only [decide_eq_true_eq] at hpred
  simp only [CourseReg.accept_counter_offer]
  rw [hs]
  dsimp only
  rw [hp]
  dsimp only
  rw [hc]
  dsimp only
  rw [if_neg (not_not_intro hpred.1)]
  rw [← hs3]
  cases hrep : s3.replace_registration_in_reg_list ac ao caller with
  | mk r s4 =>
    have h4 : s4 = s3 := by
      have hps := replace_registration_preserves_state s3 ac ao caller
      rw [hrep] at hps
      exact hps
    cases r with
    | error e =>
      dsimp only
      rw [h4]
    | ok u =>
      dsimp only
      rw [h4]
      have hps2 := replace_registration_preserves_state s3 oc caller ao
      exact Prod.ext rfl hps2

/-- Successful roster replacement: the course exists and the account to be
replaced is on its roster. -/
theorem replace_registration_ok {s : CourseReg} {course_id : CourseId}
    {course : Course} {a : AccountId} (b : AccountId)
    (h1 : Mapping.get s.courses course_id = some course)
    (h2 : a ∈ course.registrations) :
    (s.replace_registration_in_reg_list course_id a b).1 = .ok () := by
  simp only [CourseReg.replace_registration_in_reg_list]
  rw [h1]
  dsimp only
  cases hmod : positionModify (fun acc_id => decide (acc_id = a)) (fun _ => b)
      course.registrations with
  | none =>
    have := positionModify_eq_none.mp hmod a h2
    simp at this
  | some updated => rfl

theorem propose_swap_totalTokens (s : CourseReg) (caller : AccountId)
    (course_id : CourseId) :
    totalTokens (s.propose_swap caller course_id).2 = totalTokens s := by
  cases hr : Mapping.get s.registrations caller with
  | none => simp [CourseReg.propose_swap, hr]
  | some regs =>
    cases hpos : positionRemove (fun x => decide (x.course_id = course_id)) regs with
    | none => simp [CourseReg.propose_swap, hr, hpos]
    | some pr =>
      obtain ⟨tok, regs2⟩ := pr
      have hstate : (s.propose_swap caller course_id).2
          = ({ s with registrations := Mapping.insert s.registrations caller regs2
             }).add_proposal course_id { offer := tok, counter_offers := [] } := by
        simp [CourseReg.propose_swap, hr, hpos]
      rw [hstate, totalTokens_add_proposal]
      have hlen := positionRemove_length hpos
      have h2 := mapSize_insert_some regs2 List.length hr
      have h3 : proposalSize { offer := tok, counter_offers := [] } = 1 := rfl
      rw [h3]
      simp only [totalTokens]
      omega

theorem counter_ok_totalTokens (s : CourseReg) (caller : AccountId)
    (course_id : CourseId) (offerer : AccountId) (counter_course_id : CourseId)
    (h : (s.counter_swap_proposal caller course_id offerer counter_course_id).1 = .ok ()) :
    totalTokens (s.counter_swap_proposal caller course_id offerer counter_course_id).2
      = totalTokens s := by
  cases hro : s.get_own_registrations caller with
  | error e =>
    simp only [CourseReg.counter_swap_proposal] at h
    rw [hro] at h
    simp at h
  | ok caller_regs =>
    cases hpos : positionRemove (fun reg => decide (reg.course_id = counter_course_id))
        caller_regs with
    | none =>
      simp only [CourseReg.counter_swap_proposal] at h
      rw [hro] at h
      dsimp only at h
      rw [hpos] at h
      simp at h
    | some pr =>
      obtain ⟨ex, caller_regs2⟩ := pr
      cases hsw : Mapping.get s.swaps course_id with
      | none =>
        simp only [CourseReg.counter_swap_proposal] at h
        rw [hro] at h
        dsimp only at h
        rw [hpos] at h
        dsimp only at h
        rw [hsw] at h
        simp at h
      | some proposals =>
        cases hmod : positionModify (fun prop => decide (prop.offer.owner = offerer))
            (fun prop => { prop with counter_offers := prop.counter_offers.concat ex })
            proposals with
        | none =>
          simp only [CourseReg.counter_swap_proposal] at h
          rw [hro] at h
          dsimp only at h
          rw [hpos] at h
          dsimp only at h
          rw [hsw] at h
          dsimp only at h
          rw [hmod] at h
          simp at h
        | some proposals2 =>
          have hstate :
              (s.counter_swap_proposal caller course_id offerer counter_course_id).2
              = { s with
                    registrations := Mapping.insert s.registrations caller caller_regs2
                    swaps := Mapping.insert s.swaps course_id proposals2 } := by
            simp only [CourseReg.counter_swap_proposal]
            rw [hro]
            dsimp only
            rw [hpos]
            dsimp only
            rw [hsw]
            dsimp only
            rw [hmod]
          rw [hstate]
          have hget := get_own_registrations_ok hro
          have hlen := positionRemove_length hpos
          have h2 := mapSize_insert_some caller_regs2 List.length hget
          have h3 := mapSize_insert_some proposals2
            (fun props => (props.map proposalSize).sum) hsw
          have h4 := positionModify_concat_sum hmod
          simp only at h3
          simp only [totalTokens]
          omega

theorem accept_ok_totalTokens (s : CourseReg) (caller ao : AccountId) (oc ac : CourseId)
    (proposals ps2 : List CourseRegistrationSwapProposal)
    (fp : CourseRegistrationSwapProposal)
    (h : (s.accept_counter_offer caller oc ac ao).1 = .ok ())
    (hs : Mapping.get s.swaps oc = some proposals)
    (hp : positionRemove (fun prop => decide (prop.offer.owner = caller)) proposals
      = some (fp, ps2)) :
    totalTokens (s.accept_counter_offer caller oc ac ao).2 + fp.counter_offers.length
      = totalTokens s + 1 := by
  cases hc : positionRemove (fun c => decide (c.owner = ao ∧ c.course_id = ac))
      fp.counter_offers with
  | none =>
    simp only [CourseReg.accept_counter_offer] at h
    rw [hs] at h
    dsimp only at h
    rw [hp] at h
    dsimp only at h
    rw [hc] at h
    simp at h
  | some fcr =>
    obtain ⟨fc, rest⟩ := fcr
    have heval := accept_eval s _ caller ao oc ac proposals ps2 fp fc rest rfl hs hp hc
    rw [heval]
    dsimp only
    rw [totalTokens_add_registration, totalTokens_add_registration]
    have h3 := mapSize_insert_some ps2 (fun props => (props.map proposalSize).sum) hs
    have h4 := positionRemove_sum proposalSize hp
    have h5 : proposalSize fp = 1 + fp.counter_offers.length := rfl
    simp only at h3
    rw [h5] at h4
    simp only [totalTokens]
    omega

theorem add_proposal_registrations (s : CourseReg) (course_id : CourseId)
    (p : CourseRegistrationSwapProposal) :
    (s.add_proposal course_id p).registrations = s.registrations := by
  simp only [CourseReg.add_proposal]
  split
  all_goals rfl

theorem add_registration_swaps (s : CourseReg) (course_id : CourseId) (o : AccountId) :
    (s.add_registration course_id o).swaps = s.swaps := by
  simp only [CourseReg.add_registration]
  split
  all_goals rfl

theorem add_proposal_swaps (s : CourseReg) (course_id : CourseId)
    (p : CourseRegistrationSwapProposal) :
    ∃ L : List CourseRegistrationSwapProposal,
      (s.add_proposal course_id p).swaps = Mapping.insert s.swaps course_id (L.concat p) ∧
      ∀ y ∈ L, ∃ props, Mapping.get s.swaps course_id = some props ∧ y ∈ props := by
  cases hg : Mapping.get s.swaps course_id with
  | none => exact ⟨[], by simp [CourseReg.add_proposal, hg], by simp⟩
  | some props => exact ⟨props, by simp [CourseReg.add_proposal, hg],
      fun y hy => ⟨props, rfl, hy⟩⟩

theorem add_registration_registrations_some (s : CourseReg) (course_id : CourseId)
    (o : AccountId) (regs : List CourseRegistration)
    (h : Mapping.get s.registrations o = some regs) :
    (s.add_registration course_id o).registrations
      = Mapping.insert s.registrations o (regs.concat ⟨o, course_id⟩) := by
  simp [CourseReg.add_registration, h]

theorem get_own_registrations_eval {s : CourseReg} {caller : AccountId}
    {regs : List CourseRegistration} (h : Mapping.get s.registrations caller = some regs)
    (hne : regs.length ≠ 0) : s.get_own_registrations caller = .ok regs := by
  simp [CourseReg.get_own_registrations, h, hne]

theorem propose_eval (s : CourseReg) (caller : AccountId) (course_id : CourseId)
    (regs regs2 : List CourseRegistration) (tok : CourseRegistration)
    (hr : Mapping.get s.registrations caller = some regs)
    (hpos : positionRemove (fun x => decide (x.course_id = course_id)) regs
      = some (tok, regs2)) :
    s.propose_swap caller course_id =
      (.ok (), ({ s with registrations := Mapping.insert s.registrations caller regs2
        }).add_proposal course_id { offer := tok, counter_offers := [] }) := by
  simp [CourseReg.propose_swap, hr, hpos]

theorem counter_eval (s : CourseReg) (caller : AccountId) (course_id : CourseId)
    (offerer : AccountId) (counter_course_id : CourseId)
    (cregs cregs2 : List CourseRegistration) (ex : CourseRegistration)
    (proposals proposals2 : List CourseRegistrationSwapProposal)
    (hro : s.get_own_registrations caller = .ok cregs)
    (hpos : positionRemove (fun reg => decide (reg.course_id = counter_course_id)) cregs
      = some (ex, cregs2))
    (hsw : Mapping.get s.swaps course_id = some proposals)
    (hmod : positionModify (fun prop => decide (prop.offer.owner = offerer))
      (fun prop => { prop with counter_offers := prop.counter_offers.concat ex })
      proposals = some proposals2) :
    s.counter_swap_proposal caller course_id offerer counter_course_id =
      (.ok (), { s with
          registrations := Mapping.insert s.registrations caller cregs2
          swaps := Mapping.insert s.swaps course_id proposals2 }) := by
  simp only [CourseReg.counter_swap_proposal]
  rw [hro]
  dsimp only
  rw [hpos]
  dsimp only
  rw [hsw]
  dsimp only
  rw [hmod]

/-- When `counter_swap_proposal` fails after the escrow step (the caller's
registration list was read, a token for `counter_course_id` was found, and
its removal was persisted), the escrowed token is destroyed: the total token
count decreases by exactly 1. -/
theorem counter_escrow_err_totalTokens (s : CourseReg) (caller : AccountId)
    (course_id : CourseId) (offerer : AccountId) (counter_course_id : CourseId)
    (caller_regs caller_regs2 : List CourseRegistration) (ex : CourseRegistration)
    (hro : s.get_own_registrations caller = .ok caller_regs)
    (hpos : positionRemove (fun reg => decide (reg.course_id = counter_course_id))
      caller_regs = some (ex, caller_regs2))
    (herr : (s.counter_swap_proposal caller course_id offerer counter_course_id).1
      = .error .NoProposedSwap) :
    totalTokens (s.counter_swap_proposal caller course_id offerer counter_course_id).2 + 1
      = totalTokens s := by
  have hget := get_own_registrations_ok hro
  have hlen := positionRemove_length hpos
  have h2 := mapSize_insert_some caller_regs2 List.length hget
  cases hsw : Mapping.get s.swaps course_id with
  | none =>
    have hstate : (s.counter_swap_proposal caller course_id offerer counter_course_id).2
        = { s with registrations := Mapping.insert s.registrations caller caller_regs2 } := by
      simp only [CourseReg.counter_swap_proposal]
      rw [hro]
      dsimp only
      rw [hpos]
      dsimp only
      rw [hsw]
    rw [hstate]
    simp only [totalTokens]
    omega
  | some proposals =>
    cases hmod : positionModify (fun prop => decide (prop.offer.owner = offerer))
        (fun prop => { prop with counter_offers := prop.counter_offers.concat ex })
        proposals with
    | none =>
      have hstate : (s.counter_swap_proposal caller course_id offerer counter_course_id).2
          = { s with registrations := Mapping.insert s.registrations caller caller_regs2 } := by
        simp only [CourseReg.counter_swap_proposal]
        rw [hro]
        dsimp only
        rw [hpos]
        dsimp only
        rw [hsw]
        dsimp only
        rw [hmod]
      rw [hstate]
      simp only [totalTokens]
      omega
    | some proposals2 =>
      have hok := counter_eval s caller course_id offerer counter_course_id caller_regs
        caller_regs2 ex proposals proposals2 hro hpos hsw hmod
      rw [hok] at herr
      simp at herr

theorem positionRemove_mem {α : Type} {p : α → Bool} {l : List α} {x : α} {r : List α}
    (h : positionRemove p l = some (x, r)) : x ∈ l := by
  obtain ⟨l1, l2, hl, -, -, -⟩ := positionRemove_eq_some h
  subst hl
  simp

theorem positionRemove_subset {α : Type} {p : α → Bool} {l : List α} {x : α} {r : List α}
    (h : positionRemove p l = some (x, r)) : ∀ y ∈ r, y ∈ l := by
  obtain ⟨l1, l2, hl, hr, -, -⟩ := positionRemove_eq_some h
  subst hl
  subst hr
  intro y hy
  simp only [List.mem_append, List.mem_cons] at hy ⊢
  tauto

theorem positionRemove_concat_of_all_false {α : Type} {p : α → Bool} {l : List α} {x : α}
    (hall : ∀ y ∈ l, p y = false) (hx : p x = true) :
    positionRemove p (l.concat x) = some (x, l) := by
  induction l with
  | nil => simp [positionRemove, hx]
  | cons a as ih =>
    have ha := hall a (List.mem_cons_self a as)
    have ih2 := ih (fun y hy => hall y (List.mem_cons_of_mem _ hy))
    simp [positionRemove, ha]
    simpa [List.concat_eq_append] using ih2

theorem positionModify_concat_of_all_false {α : Type} {p : α → Bool} {f : α → α}
    {l : List α} {x : α} (hall : ∀ y ∈ l, p y = false) (hx : p x = true) :
    positionModify p f (l.concat x) = some (l.concat (f x)) := by
  induction l with
  | nil => simp [positionModify, hx]
  | cons a as ih =>
    have ha := hall a (List.mem_cons_self a as)
    have ih2 := ih (fun y hy => hall y (List.mem_cons_of_mem _ hy))
    simp [positionModify, ha]
    simpa [List.concat_eq_append] using ih2

/-- C8: after the constructor `new(owner)` runs, the owner account is recorded
as a school member with the teacher flag set, `is_teacher` returns true for the
owner, and a `create_course` call made by the owner succeeds (in particular it
does not fail with `InsufficientPermissions`). -/
theorem claim_C8_owner_is_teacher (owner : AccountId) :
    Mapping.get (CourseReg.new owner).school_members owner = some true ∧
    (CourseReg.new owner).is_teacher_inner owner = true ∧
    ∀ (course_id : CourseId) (cap : Nat) (start : Timestamp),
      ((CourseReg.new owner).create_course owner course_id cap start).1 = .ok () := by
  refine ⟨?_, ?_, ?_⟩ <;>
    simp [CourseReg.new, Mapping.insert, Mapping.get, CourseReg.is_teacher_inner,
      CourseReg.create_course]

/-- C6: `register_to_course` runs its five checks in a fixed order, the first
failing check determining the returned error: membership, course existence,
capacity, duplicate registration, start date. In particular a non-member
registering to an absent course gets `InsufficientPermissions` (first
conjunct: no assumption about the course is needed). -/
theorem claim_C6_register_check_order (s : CourseReg) (caller : AccountId)
    (now : Timestamp) (course_id : CourseId) :
    (s.is_school_member_inner caller = false →
      (s.register_to_course caller now course_id).1 = .error .InsufficientPermissions) ∧
    (s.is_school_member_inner caller = true → Mapping.get s.courses course_id = none →
      (s.register_to_course caller now course_id).1 = .error .NonexistentCourse) ∧
    (∀ course, s.is_school_member_inner caller = true →
      Mapping.get s.courses course_id = some course →
      course.capacity ≤ course.registrations.length →
      (s.register_to_course caller now course_id).1 = .error .CourseCapacityFull) ∧
    (∀ course, s.is_school_member_inner caller = true →
      Mapping.get s.courses course_id = some course →
      course.registrations.length < course.capacity →
      caller ∈ course.registrations →
      (s.register_to_course caller now course_id).1 = .error .AlreadyRegistered) ∧
    (∀ course, s.is_school_member_inner caller = true →
      Mapping.get s.courses course_id = some course →
      course.registrations.length < course.capacity →
      caller ∉ course.registrations →
      course.start_date ≤ now →
      (s.register_to_course caller now course_id).1 = .error .CourseAlreadyStarted) := by
  refine ⟨?_, ?_, ?_, ?_, ?_⟩
  · intro h1
    simp [CourseReg.register_to_course, h1]
  · intro h1 h2
    simp [CourseReg.register_to_course, h1, h2]
  · intro course h1 h2 h3
    simp [CourseReg.register_to_course, h1, h2, h3]
  · intro course h1 h2 h3 h4
    simp [CourseReg.register_to_course, h1, h2, Nat.not_le.mpr h3, h4]
  · intro course h1 h2 h3 h4 h5
    simp [CourseReg.register_to_course, h1, h2, Nat.not_le.mpr h3, h4, h5]

/-- C6 witness: each of the five errors observed on a concrete state. -/
theorem claim_C6_register_check_order_witness :
    ((CourseReg.new 0).register_to_course 5 0 10).1 = .error .InsufficientPermissions ∧
    ((CourseReg.new 0).register_to_course 0 0 10).1 = .error .NonexistentCourse ∧
    (c6full.register_to_course 0 0 10).1 = .error .CourseCapacityFull ∧
    (c6reg.register_to_course 0 0 10).1 = .error .AlreadyRegistered ∧
    (c6start.register_to_course 0 200 10).1 = .error .CourseAlreadyStarted :=
  ⟨(claim_C6_register_check_order _ 5 0 10).1 (by decide),
   (claim_C6_register_check_order _ 0 0 10).2.1 (by decide) (by decide),
   (claim_C6_register_check_order _ 0 0 10).2.2.1 ⟨0, 10, 0, [], 100⟩ (by decide)
     (by decide) (by decide),
   (claim_C6_register_check_order _ 0 0 10).2.2.2.1 ⟨0, 10, 5, [0], 100⟩ (by decide)
     (by decide) (by decide) (by decide),
   (claim_C6_register_check_order _ 0 200 10).2.2.2.2 ⟨0, 10, 5, [], 100⟩ (by decide)
     (by decide) (by decide) (by decide) (by decide)⟩

/-- C9: every error return of `register_to_course` leaves the contract state
unchanged, and `propose_swap` leaves the state unchanged whenever it returns
`NoSwappableRegistrations` (its only error). -/
theorem claim_C9_error_atomicity :
    (∀ (s : CourseReg) (caller : AccountId) (now : Timestamp) (course_id : CourseId)
      (e : Error), (s.register_to_course caller now course_id).1 = .error e →
      (s.register_to_course caller now course_id).2 = s) ∧
    (∀ (s : CourseReg) (caller : AccountId) (course_id : CourseId),
      (s.propose_swap caller course_id).1 = .error .NoSwappableRegistrations →
      (s.propose_swap caller course_id).2 = s) := by
  constructor
  · intro s caller now course_id e h
    have key : (s.register_to_course caller now course_id).1 = .ok () ∨
        (s.register_to_course caller now course_id).2 = s := by
      simp only [CourseReg.register_to_course]
      repeat' split
      all_goals simp
    rcases key with hk | hk
    · rw [hk] at h; simp at h
    · exact hk
  · intro s caller course_id h
    have key : (s.propose_swap caller course_id).1 = .ok () ∨
        (s.propose_swap caller course_id).2 = s := by
      simp only [CourseReg.propose_swap]
      repeat' split
      all_goals simp
    rcases key with hk | hk
    · rw [hk] at h; simp at h
    · exact hk

/-- C9 witness: concrete error calls leaving a concrete state unchanged. -/
theorem claim_C9_error_atomicity_witness :
    ((CourseReg.new 0).register_to_course 5 0 10).2 = CourseReg.new 0 ∧
    ((CourseReg.new 0).propose_swap 5 10).2 = CourseReg.new 0 :=
  ⟨claim_C9_error_atomicity.1 (CourseReg.new 0) 5 0 10 .InsufficientPermissions (by decide),
   claim_C9_error_atomicity.2 (CourseReg.new 0) 5 10 (by decide)⟩

/-- C10: the defensive branch of `accept_counter_offer` that errors when the
removed counter-offer's owner differs from `accepted_owner` is unreachable:
the counter-offer was located by a search requiring exactly that owner, so the
function coincides with the variant whose defensive branch is deleted. -/
theorem claim_C10_defensive_branch_unreachable (s : CourseReg) (caller : AccountId)
    (offered_course_id accepted_course_id : CourseId) (accepted_owner : AccountId) :
    s.accept_counter_offer caller offered_course_id accepted_course_id accepted_owner =
      s.accept_counter_offer_unchecked caller offered_course_id accepted_course_id
        accepted_owner := by
  simp only [CourseReg.accept_counter_offer, CourseReg.accept_counter_offer_unchecked]
  cases hs : Mapping.get s.swaps offered_course_id with
  | none => rfl
  | some proposals =>
    dsimp only
    cases hp : positionRemove (fun prop => decide (prop.offer.owner = caller)) proposals with
    | none => rfl
    | some pr =>
      obtain ⟨found_prop, proposals2⟩ := pr
      dsimp only
      cases hc : positionRemove
          (fun c => decide (c.owner = accepted_owner ∧ c.course_id = accepted_course_id))
          found_prop.counter_offers with
      | none => rfl
      | some fc =>
        obtain ⟨found_counter, rest⟩ := fc
        dsimp only
        obtain ⟨l1, l2, _, _, hpred, _⟩ := positionRemove_eq_some hc
        simp only [decide_eq_true_eq] at hpred
        rw [if_neg (not_not_intro hpred.1)]

/-- C4: a concrete state and input on which `counter_swap_proposal` fails with
`NoProposedSwap` (the caller holds a token for the counter course, but no
proposal under the target course has the named offerer) while the caller's
escrowed token has already been removed from the persisted registrations and
sits in no proposal either: the call is not atomic. -/
theorem claim_C4_counter_swap_not_atomic :
    Mapping.get c4state.registrations 2 = some [⟨2, 20⟩] ∧
    Mapping.get c4state.swaps 10 = none ∧
    tokenCount c4state ⟨2, 20⟩ = 1 ∧
    (c4state.counter_swap_proposal 2 10 1 20).1 = .error .NoProposedSwap ∧
    tokenCount (c4state.counter_swap_proposal 2 10 1 20).2 ⟨2, 20⟩ = 0 ∧
    Mapping.get (c4state.counter_swap_proposal 2 10 1 20).2.registrations 2 = some [] := by
  decide

/-- C3: `replace_registration_in_reg_list` never persists its roster update:
it computes the replacement on a local copy and returns without writing the
course back, so the state is unchanged on every path (first conjunct); on the
repo's own happy-path swap scenario the acceptance succeeds and the ledger
records the swapped tokens, yet the stored rosters still list the pre-swap
holders, contradicting the claimed roster/ledger agreement. The error cases
(course absent, account not in roster) do return `NoProposedSwap` as claimed. -/
theorem claim_C3_roster_update_never_persisted :
    (∀ (s : CourseReg) (course_id : CourseId) (a b : AccountId),
      (s.replace_registration_in_reg_list course_id a b).2 = s) ∧
    c3final.1 = .ok () ∧
    c3final.2.get_own_registrations 2 = .ok [⟨2, 11⟩] ∧
    c3final.2.get_own_registrations 3 = .ok [⟨3, 10⟩] ∧
    (Mapping.get c3final.2.courses 11).map Course.registrations = some [3] ∧
    (Mapping.get c3final.2.courses 10).map Course.registrations = some [2] ∧
    (c3final.2.replace_registration_in_reg_list 11 9 8).1 = .error .NoProposedSwap ∧
    (c3final.2.replace_registration_in_reg_list 99 2 8).1 = .error .NoProposedSwap := by
  constructor
  · intro s course_id a b
    simp only [CourseReg.replace_registration_in_reg_list]
    repeat' split
    all_goals rfl
  · decide

theorem CoursesOk.of_courses_eq {s t : CourseReg} (h : CoursesOk s)
    (he : t.courses = s.courses) : CoursesOk t := by
  intro q hq
  exact h q (he ▸ hq)

theorem coursesOk_step {s t : CourseReg} (hst : Step s t) (ih : CoursesOk s) :
    CoursesOk t := by
  cases hst with
  | admit_teacher caller account =>
    exact ih.of_courses_eq (admit_as_teacher_courses s caller account)
  | admit_student caller account =>
    exact ih.of_courses_eq (admit_as_student_courses s caller account)
  | propose caller course_id =>
    exact ih.of_courses_eq (propose_swap_courses s caller course_id)
  | counter caller course_id offerer counter_course_id =>
    exact ih.of_courses_eq
      (counter_swap_proposal_courses s caller course_id offerer counter_course_id)
  | accept caller oc ac ao =>
    exact ih.of_courses_eq (accept_counter_offer_courses s caller oc ac ao)
  | create caller course_id cap start =>
    intro q hq
    revert hq
    simp only [CourseReg.create_course]
    split
    · exact fun hq => ih q hq
    · intro hq
      rcases Mapping.mem_insert hq with h | h
      · rw [h]
        exact ⟨Nat.zero_le _, List.nodup_nil⟩
      · exact ih q h
  | register caller now course_id =>
    cases hb : s.is_school_member_inner caller with
    | false =>
      intro q hq
      simp only [CourseReg.register_to_course, hb] at hq
      exact ih q hq
    | true =>
      cases hc : Mapping.get s.courses course_id with
      | none =>
        intro q hq
        simp only [CourseReg.register_to_course, hb, hc] at hq
        simp at hq
        exact ih q hq
      | some course =>
        by_cases hcap : course.capacity ≤ course.registrations.length
        · intro q hq
          simp only [CourseReg.register_to_course, hb, hc] at hq
          simp [hcap] at hq
          exact ih q hq
        · by_cases hmem : caller ∈ course.registrations
          · intro q hq
            simp only [CourseReg.register_to_course, hb, hc] at hq
            simp [hcap, hmem] at hq
            exact ih q hq
          · by_cases hstart : course.start_date ≤ now
            · intro q hq
              simp only [CourseReg.register_to_course, hb, hc] at hq
              simp [hcap, hmem, hstart] at hq
              exact ih q hq
            · have hred : ((s.register_to_course caller now course_id)).2.courses
                  = Mapping.insert s.courses course_id
                      { course with registrations := course.registrations.concat caller } := by
                simp [CourseReg.register_to_course, hb, hc, hcap, hmem, hstart,
                  add_registration_courses]
              intro q hq
              rw [hred] at hq
              rcases Mapping.mem_insert hq with h | h
              · rw [h]
                have hold := ih (course_id, course) (Mapping.get_mem hc)
                constructor
                · simp only [List.concat_eq_append, List.length_append]
                  simp only [Nat.not_le] at hcap
                  simpa using hcap
                · simp only [List.concat_eq_append, List.nodup_append]
                  refine ⟨hold.2, List.nodup_singleton _, fun a ha hb2 => hmem ?_⟩
                  simp at hb2
                  exact hb2 ▸ ha
              · exact ih q h

/-- C7: for every reachable state (so in particular after every sequence of
`create_course` and `register_to_course` calls), every stored course has a
roster no longer than its capacity and with no duplicate accounts. -/
theorem claim_C7_roster_invariant (s : CourseReg) (h : Reachable s) :
    ∀ (course_id : CourseId) (course : Course),
      Mapping.get s.courses course_id = some course →
      course.registrations.length ≤ course.capacity ∧ course.registrations.Nodup := by
  have main : CoursesOk s := by
    induction h with
    | init owner => intro q hq; simp [CourseReg.new] at hq
    | step _ hstep ih => exact coursesOk_step hstep ih
  intro course_id course hget
  exact main (course_id, course) (Mapping.get_mem hget)

/-- C7 witness: a concrete reachable state (constructor followed by one
`create_course`) and its stored course's roster. -/
theorem claim_C7_roster_invariant_witness :
    ((⟨0, 10, 5, [], 100⟩ : Course)).registrations.length ≤
      ((⟨0, 10, 5, [], 100⟩ : Course)).capacity ∧
    ((⟨0, 10, 5, [], 100⟩ : Course)).registrations.Nodup :=
  claim_C7_roster_invariant _
    (Reachable.step (Reachable.init 0) (Step.create (CourseReg.new 0) 0 10 5 100))
    10 ⟨0, 10, 5, [], 100⟩ (by decide)

/-- C2 (amended): `propose_swap` conserves the total token count on every
path (Ok or error); `counter_swap_proposal` conserves it whenever it returns
Ok, and whenever it fails after the escrow step (the caller's token for
`counter_course_id` was found and its removal persisted) the escrowed token
is destroyed and the total decreases by exactly 1; a successful
`accept_counter_offer` destroys the removed proposal (the offer and all of
its counter-offers) and mints exactly two tokens, so the total satisfies
`after + #counterOffers = before + 1` — it consumes exactly 2 and mints
exactly 2 precisely when the accepted proposal carried exactly one
counter-offer. -/
theorem claim_C2_token_conservation :
    (∀ (s : CourseReg) (caller : AccountId) (course_id : CourseId),
      totalTokens (s.propose_swap caller course_id).2 = totalTokens s) ∧
    (∀ (s : CourseReg) (caller : AccountId) (course_id : CourseId) (offerer : AccountId)
      (counter_course_id : CourseId),
      (s.counter_swap_proposal caller course_id offerer counter_course_id).1 = .ok () →
      totalTokens (s.counter_swap_proposal caller course_id offerer counter_course_id).2
        = totalTokens s) ∧
    (∀ (s : CourseReg) (caller : AccountId) (course_id : CourseId) (offerer : AccountId)
      (counter_course_id : CourseId)
      (caller_regs caller_regs2 : List CourseRegistration) (ex : CourseRegistration),
      s.get_own_registrations caller = .ok caller_regs →
      positionRemove (fun reg => decide (reg.course_id = counter_course_id)) caller_regs
        = some (ex, caller_regs2) →
      (s.counter_swap_proposal caller course_id offerer counter_course_id).1
        = .error .NoProposedSwap →
      totalTokens (s.counter_swap_proposal caller course_id offerer counter_course_id).2
        + 1 = totalTokens s) ∧
    (∀ (s : CourseReg) (caller ao : AccountId) (oc ac : CourseId)
      (proposals ps2 : List CourseRegistrationSwapProposal)
      (fp : CourseRegistrationSwapProposal),
      (s.accept_counter_offer caller oc ac ao).1 = .ok () →
      Mapping.get s.swaps oc = some proposals →
      positionRemove (fun prop => decide (prop.offer.owner = caller)) proposals
        = some (fp, ps2) →
      totalTokens (s.accept_counter_offer caller oc ac ao).2 + fp.counter_offers.length
        = totalTokens s + 1) :=
  ⟨propose_swap_totalTokens,
   counter_ok_totalTokens,
   counter_escrow_err_totalTokens,
   fun s caller ao oc ac proposals ps2 fp h hs hp =>
     accept_ok_totalTokens s caller ao oc ac proposals ps2 fp h hs hp⟩

/-- C2 witness: a concrete happy-path propose / counter / accept run (the
accepted proposal carries exactly one counter-offer, so the accept conserves
the total: 2 consumed, 2 minted), plus a concrete post-escrow failure of
`counter_swap_proposal` destroying exactly one token. -/
theorem claim_C2_token_conservation_witness :
    totalTokens (c2w.propose_swap 1 10).2 = totalTokens c2w ∧
    totalTokens (c2w2.counter_swap_proposal 2 10 1 11).2 = totalTokens c2w2 ∧
    totalTokens (c2cex.counter_swap_proposal 2 10 1 20).2 + 1 = totalTokens c2cex ∧
    totalTokens (c2w3.accept_counter_offer 1 10 11 2).2 +
      (⟨⟨1, 10⟩, [⟨2, 11⟩]⟩ : CourseRegistrationSwapProposal).counter_offers.length
      = totalTokens c2w3 + 1 :=
  ⟨claim_C2_token_conservation.1 c2w 1 10,
   claim_C2_token_conservation.2.1 c2w2 2 10 1 11 (by decide),
   claim_C2_token_conservation.2.2.1 c2cex 2 10 1 20 [⟨2, 20⟩] [] ⟨2, 20⟩
     (by decide) (by decide) (by decide),
   claim_C2_token_conservation.2.2.2 c2w3 1 2 10 11 [⟨⟨1, 10⟩, [⟨2, 11⟩]⟩]
     [] ⟨⟨1, 10⟩, [⟨2, 11⟩]⟩ (by decide) (by decide) (by decide)⟩

/-- C2 counterexample to the claim as stated: a `counter_swap_proposal` call
that returns an error after persisting the escrow removal; the total number
of tokens drops from 1 to 0 across the call. -/
theorem claim_C2_counterexample :
    totalTokens c2cex = 1 ∧
    (c2cex.counter_swap_proposal 2 10 1 20).1 = .error .NoProposedSwap ∧
    totalTokens (c2cex.counter_swap_proposal 2 10 1 20).2 = 0 := by
  decide

/-- C1: the happy-path swap sequence. From any well-formed state in which
student `A` holds exactly one token for course `X`, student `B` holds exactly
one token for course `Y`, no proposal anywhere is offered by `A`, and both
courses exist with `A` resp. `B` on their rosters, the sequence
propose (A, X) / counter (B, X, A, Y) / accept (A, X, Y, B) succeeds, and
afterwards `A`'s list contains `{A, Y}`, `B`'s list contains `{B, X}`, and
neither `{A, X}` nor `{B, Y}` appears in any registration list. -/
theorem claim_C1_swap_round_trip (s : CourseReg) (A B : AccountId) (X Y : CourseId)
    (regsA regsB : List CourseRegistration) (cX cY : Course)
    (hAB : A ≠ B) (hXY : X ≠ Y)
    (hwf : ∀ q ∈ s.registrations, ∀ t ∈ (q.2 : List CourseRegistration), t.owner = q.1)
    (hA : Mapping.get s.registrations A = some regsA)
    (hA1 : regsA.countP (fun t => decide (t.course_id = X)) = 1)
    (hB : Mapping.get s.registrations B = some regsB)
    (hB1 : regsB.countP (fun t => decide (t.course_id = Y)) = 1)
    (hsw : ∀ q ∈ s.swaps, ∀ pr ∈ (q.2 : List CourseRegistrationSwapProposal),
      pr.offer.owner ≠ A)
    (hcX : Mapping.get s.courses X = some cX) (hcXr : A ∈ cX.registrations)
    (hcY : Mapping.get s.courses Y = some cY) (hcYr : B ∈ cY.registrations) :
    ∀ r1 s1 r2 s2 r3 s3,
      s.propose_swap A X = (r1, s1) →
      s1.counter_swap_proposal B X A Y = (r2, s2) →
      s2.accept_counter_offer A X Y B = (r3, s3) →
      r1 = .ok () ∧ r2 = .ok () ∧ r3 = .ok () ∧
      (∃ regs, Mapping.get s3.registrations A = some regs ∧ ⟨A, Y⟩ ∈ regs) ∧
      (∃ regs, Mapping.get s3.registrations B = some regs ∧ ⟨B, X⟩ ∈ regs) ∧
      (∀ o regs, Mapping.get s3.registrations o = some regs →
        (⟨A, X⟩ : CourseRegistration) ∉ regs ∧ (⟨B, Y⟩ : CourseRegistration) ∉ regs) := by
  intro r1 s1 r2 s2 r3 s3 hstep1 hstep2 hstep3
  -- step 1: A escrows its X token
  have hApos : ∃ pr, positionRemove (fun t => decide (t.course_id = X)) regsA = some pr := by
    cases hp : positionRemove (fun t => decide (t.course_id = X)) regsA with
    | none =>
      exfalso
      have hz : regsA.countP (fun t => decide (t.course_id = X)) = 0 :=
        List.countP_eq_zero.mpr (by
          intro a ha
          have hfa := positionRemove_eq_none.mp hp a ha
          simp [hfa])
      omega
    | some pr => exact ⟨pr, rfl⟩
  obtain ⟨⟨tokA, regsA2⟩, hApos⟩ := hApos
  have htokAX : tokA.course_id = X := by
    obtain ⟨l1, l2, -, -, hx, -⟩ := positionRemove_eq_some hApos
    simpa using hx
  have htokAowner : tokA.owner = A :=
    hwf (A, regsA) (Mapping.get_mem hA) tokA (positionRemove_mem hApos)
  have hA2count : regsA2.countP (fun t => decide (t.course_id = X)) = 0 := by
    have hcp := positionRemove_countP hApos
    omega
  have hA2sub := positionRemove_subset hApos
  have hpe := propose_eval s A X regsA regsA2 tokA hA hApos
  rw [hstep1] at hpe
  injection hpe with hr1 hs1
  obtain ⟨L, hLswap, hLmem⟩ := add_proposal_swaps
    ({ s with registrations := Mapping.insert s.registrations A regsA2 }) X
    { offer := tokA, counter_offers := [] }
  have hs1regs : s1.registrations = Mapping.insert s.registrations A regsA2 := by
    rw [hs1, add_proposal_registrations]
  have hs1swaps : s1.swaps
      = Mapping.insert s.swaps X (L.concat { offer := tokA, counter_offers := [] }) := by
    rw [hs1, hLswap]
  have hLfalse : ∀ y ∈ L, (fun prop => decide (prop.offer.owner = A)) y = false := by
    intro y hy
    obtain ⟨props, hgp, hyp⟩ := hLmem y hy
    have hne := hsw (X, props) (Mapping.get_mem hgp) y hyp
    simp [hne]
  -- step 2: B escrows its Y token and counters A's proposal
  have hgetB1 : Mapping.get s1.registrations B = some regsB := by
    rw [hs1regs, Mapping.get_insert, if_neg (fun hh => hAB hh.symm)]
    exact hB
  have hBne : regsB.length ≠ 0 := by
    intro h0
    rw [List.length_eq_zero] at h0
    subst h0
    simp at hB1
  have hroB : s1.get_own_registrations B = .ok regsB := get_own_registrations_eval hgetB1 hBne
  have hBpos : ∃ pr, positionRemove (fun t => decide (t.course_id = Y)) regsB = some pr := by
    cases hp : positionRemove (fun t => decide (t.course_id = Y)) regsB with
    | none =>
      exfalso
      have hz : regsB.countP (fun t => decide (t.course_id = Y)) = 0 :=
        List.countP_eq_zero.mpr (by
          intro a ha
          have hfa := positionRemove_eq_none.mp hp a ha
          simp [hfa])
      omega
    | some pr => exact ⟨pr, rfl⟩
  obtain ⟨⟨tokB, regsB2⟩, hBpos⟩ := hBpos
  have htokBY : tokB.course_id = Y := by
    obtain ⟨l1, l2, -, -, hx, -⟩ := positionRemove_eq_some hBpos
    simpa using hx
  have htokBowner : tokB.owner = B :=
    hwf (B, regsB) (Mapping.get_mem hB) tokB (positionRemove_mem hBpos)
  have hB2count : regsB2.countP (fun t => decide (t.course_id = Y)) = 0 := by
    have hcp := positionRemove_countP hBpos
    omega
  have hB2sub := positionRemove_subset hBpos
  have hgetSw1 : Mapping.get s1.swaps X
      = some (L.concat { offer := tokA, counter_offers := [] }) := by
    rw [hs1swaps, Mapping.get_insert, if_pos rfl]
  have hmodOk : positionModify (fun prop => decide (prop.offer.owner = A))
      (fun prop => { prop with counter_offers := prop.counter_offers.concat tokB })
      (L.concat { offer := tokA, counter_offers := [] })
      = some (L.concat { offer := tokA, counter_offers := [tokB] }) :=
    positionModify_concat_of_all_false hLfalse (by simp [htokAowner])
  have hce := counter_eval s1 B X A Y regsB regsB2 tokB
    (L.concat { offer := tokA, counter_offers := [] })
    (L.concat { offer := tokA, counter_offers := [tokB] })
    hroB hBpos hgetSw1 hmodOk
  rw [hstep2] at hce
  injection hce with hr2 hs2
  -- step 3: A accepts B's counter-offer
  have hgetSw2 : Mapping.get s2.swaps X
      = some (L.concat { offer := tokA, counter_offers := [tokB] }) := by
    rw [hs2]
    dsimp only
    rw [Mapping.get_insert, if_pos rfl]
  have hremP : positionRemove (fun prop => decide (prop.offer.owner = A))
      (L.concat { offer := tokA, counter_offers := [tokB] })
      = some ({ offer := tokA, counter_offers := [tokB] }, L) :=
    positionRemove_concat_of_all_false hLfalse (by simp [htokAowner])
  have hremC : positionRemove (fun c => decide (c.owner = B ∧ c.course_id = Y)) [tokB]
      = some (tokB, []) := by
    simp [positionRemove, htokBowner, htokBY]
  have hae := accept_eval s2
    ((({ s2 with swaps := Mapping.insert s2.swaps X L }).add_registration Y A
      ).add_registration X tokB.owner)
    A B X Y (L.concat { offer := tokA, counter_offers := [tokB] }) L
    { offer := tokA, counter_offers := [tokB] } tokB [] rfl hgetSw2 hremP hremC
  rw [hstep3] at hae
  injection hae with hr3m hs3eq
  rw [htokBowner] at hr3m hs3eq
  -- courses are untouched throughout
  have hs2courses : s2.courses = s.courses := by
    rw [hs2]
    dsimp only
    rw [hs1, add_proposal_courses]
  have hs3courses : s3.courses = s.courses := by
    rw [hs3eq, add_registration_courses, add_registration_courses]
    exact hs2courses
  have hrep1 : (s3.replace_registration_in_reg_list Y B A).1 = .ok () :=
    replace_registration_ok A (by rw [hs3courses]; exact hcY) hcYr
  have hrep2 : (s3.replace_registration_in_reg_list X A B).1 = .ok () :=
    replace_registration_ok B (by rw [hs3courses]; exact hcX) hcXr
  rw [hs3eq] at hrep1 hrep2
  have hr3 : r3 = .ok () := by
    rw [hr3m, hrep1]
    dsimp only
    exact hrep2
  -- the final registrations mapping
  have hs2regs : s2.registrations
      = Mapping.insert (Mapping.insert s.registrations A regsA2) B regsB2 := by
    rw [hs2]
    dsimp only
    rw [hs1regs]
  have hgA2 : Mapping.get s2.registrations A = some regsA2 := by
    rw [hs2regs, Mapping.get_insert, if_neg hAB, Mapping.get_insert, if_pos rfl]
  have hadd1 := add_registration_registrations_some
    ({ s2 with swaps := Mapping.insert s2.swaps X L }) Y A regsA2 hgA2
  have hgB2 : Mapping.get
      (({ s2 with swaps := Mapping.insert s2.swaps X L }).add_registration Y A).registrations
      B = some regsB2 := by
    rw [hadd1, Mapping.get_insert, if_neg (fun hh => hAB hh.symm)]
    rw [hs2regs, Mapping.get_insert, if_pos rfl]
  have hadd2 := add_registration_registrations_some
    (({ s2 with swaps := Mapping.insert s2.swaps X L }).add_registration Y A) X B regsB2 hgB2
  have hs3regs : s3.registrations
      = Mapping.insert (Mapping.insert s2.registrations A (regsA2.concat ⟨A, Y⟩)) B
          (regsB2.concat ⟨B, X⟩) := by
    rw [hs3eq, hadd2, hadd1]
  refine ⟨hr1, hr2, hr3, ?_, ?_, ?_⟩
  · exact ⟨regsA2.concat ⟨A, Y⟩, by
      rw [hs3regs, Mapping.get_insert, if_neg hAB, Mapping.get_insert, if_pos rfl],
      by simp [List.concat_eq_append]⟩
  · exact ⟨regsB2.concat ⟨B, X⟩, by
      rw [hs3regs, Mapping.get_insert, if_pos rfl],
      by simp [List.concat_eq_append]⟩
  · intro o regs hgo
    by_cases hoB : o = B
    · rw [hoB] at hgo
      rw [hs3regs, Mapping.get_insert, if_pos rfl] at hgo
      injection hgo with hgo
      subst hgo
      constructor
      · intro hmem
        rw [List.concat_eq_append] at hmem
        rcases List.mem_append.mp hmem with hm | hm
        · have hown : (⟨A, X⟩ : CourseRegistration).owner = B :=
            hwf (B, regsB) (Mapping.get_mem hB) ⟨A, X⟩ (hB2sub _ hm)
          exact hAB hown
        · rw [List.mem_singleton] at hm
          exact hAB (congrArg CourseRegistration.owner hm)
      · intro hmem
        rw [List.concat_eq_append] at hmem
        rcases List.mem_append.mp hmem with hm | hm
        · have hz := List.countP_eq_zero.mp hB2count ⟨B, Y⟩ hm
          simp at hz
        · rw [List.mem_singleton] at hm
          exact hXY (congrArg CourseRegistration.course_id hm).symm
    · by_cases hoA : o = A
      · rw [hoA] at hgo
        rw [hs3regs, Mapping.get_insert, if_neg (hoA ▸ hoB), Mapping.get_insert, if_pos rfl] at hgo
        injection hgo with hgo
        subst hgo
        constructor
        · intro hmem
          rw [List.concat_eq_append] at hmem
          rcases List.mem_append.mp hmem with hm | hm
          · have hz := List.countP_eq_zero.mp hA2count ⟨A, X⟩ hm
            simp at hz
          · rw [List.mem_singleton] at hm
            exact hXY (congrArg CourseRegistration.course_id hm)
        · intro hmem
          rw [List.concat_eq_append] at hmem
          rcases List.mem_append.mp hmem with hm | hm
          · have hown : (⟨B, Y⟩ : CourseRegistration).owner = A :=
              hwf (A, regsA) (Mapping.get_mem hA) ⟨B, Y⟩ (hA2sub _ hm)
            exact hAB hown.symm
          · rw [List.mem_singleton] at hm
            exact hAB (congrArg CourseRegistration.owner hm).symm
      · rw [hs3regs, Mapping.get_insert, if_neg hoB, Mapping.get_insert, if_neg hoA,
          hs2regs, Mapping.get_insert, if_neg hoB, Mapping.get_insert, if_neg hoA] at hgo
        constructor
        · intro hm
          have hown : (⟨A, X⟩ : CourseRegistration).owner = o :=
            hwf (o, regs) (Mapping.get_mem hgo) ⟨A, X⟩ hm
          exact hoA hown.symm
        · intro hm
          have hown : (⟨B, Y⟩ : CourseRegistration).owner = o :=
            hwf (o, regs) (Mapping.get_mem hgo) ⟨B, Y⟩ hm
          exact hoB hown.symm

/-- C1 witness: the round trip evaluated on a concrete two-student state. -/
theorem claim_C1_swap_round_trip_witness :
    ((c1w.propose_swap 1 10).1 = .ok ()) ∧
    (((c1w.propose_swap 1 10).2.counter_swap_proposal 2 10 1 11).1 = .ok ()) ∧
    ((((c1w.propose_swap 1 10).2.counter_swap_proposal 2 10 1 11).2.accept_counter_offer
      1 10 11 2).1 = .ok ()) ∧
    (∃ regs, Mapping.get (((c1w.propose_swap 1 10).2.counter_swap_proposal 2 10 1
        11).2.accept_counter_offer 1 10 11 2).2.registrations 1 = some regs ∧
      ⟨1, 11⟩ ∈ regs) ∧
    (∃ regs, Mapping.get (((c1w.propose_swap 1 10).2.counter_swap_proposal 2 10 1
        11).2.accept_counter_offer 1 10 11 2).2.registrations 2 = some regs ∧
      ⟨2, 10⟩ ∈ regs) ∧
    (∀ o regs, Mapping.get (((c1w.propose_swap 1 10).2.counter_swap_proposal 2 10 1
        11).2.accept_counter_offer 1 10 11 2).2.registrations o = some regs →
      (⟨1, 10⟩ : CourseRegistration) ∉ regs ∧ (⟨2, 11⟩ : CourseRegistration) ∉ regs) :=
  claim_C1_swap_round_trip c1w 1 2 10 11 [⟨1, 10⟩] [⟨2, 11⟩]
    ⟨0, 10, 5, [1], 100⟩ ⟨0, 11, 5, [2], 100⟩
    (by decide) (by decide) (by decide) (by decide) (by decide) (by decide) (by decide)
    (by decide) (by decide) (by decide) (by decide) (by decide)
    _ _ _ _ _ _ rfl rfl rfl

theorem add_registration_registrations_none (s : CourseReg) (course_id : CourseId)
    (o : AccountId) (h : Mapping.get s.registrations o = none) :
    (s.add_registration course_id o).registrations
      = Mapping.insert s.registrations o [⟨o, course_id⟩] := by
  simp [CourseReg.add_registration, h]

/-- `add_registration` only adds the freshly minted token `⟨o, course_id⟩`: any
other token absent from its owner's list stays absent. -/
theorem add_registration_mem {s : CourseReg} {course_id : CourseId} {o : AccountId}
    {t : CourseRegistration} (hne : t ≠ ⟨o, course_id⟩)
    (hbefore : ∀ regs, Mapping.get s.registrations t.owner = some regs → t ∉ regs) :
    ∀ regs2, Mapping.get (s.add_registration course_id o).registrations t.owner
      = some regs2 → t ∉ regs2 := by
  intro regs2 hg
  cases hg0 : Mapping.get s.registrations o with
  | none =>
    rw [add_registration_registrations_none s course_id o hg0, Mapping.get_insert] at hg
    by_cases ho : t.owner = o
    · rw [if_pos ho] at hg
      injection hg with hg
      subst hg
      intro hmem
      rw [List.mem_singleton] at hmem
      exact hne hmem
    · rw [if_neg ho] at hg
      exact hbefore regs2 hg
  | some regs =>
    rw [add_registration_registrations_some s course_id o regs hg0, Mapping.get_insert] at hg
    by_cases ho : t.owner = o
    · rw [if_pos ho] at hg
      injection hg with hg
      subst hg
      intro hmem
      rw [List.concat_eq_append] at hmem
      rcases List.mem_append.mp hmem with hm | hm
      · exact hbefore regs (ho ▸ hg0) hm
      · rw [List.mem_singleton] at hm
        exact hne hm
    · rw [if_neg ho] at hg
      exact hbefore regs2 hg

/-- C5 (amended): `accept_counter_offer` removes the caller's whole proposal
from the pending list before inspecting its counter-offers — the removal is
persisted even when no matching counter-offer is found and the call errors
(first part). After a successful acceptance the proposal is gone from the
swaps store and no counter-offer other than the accepted one is returned to
its owner's registration list: accept adds only the two freshly minted
tokens, so an escrowed token absent from its owner's list before the call
(and distinct from both mints) is still absent after it (second part). -/
theorem claim_C5_escrow_stranded :
    (∀ (s : CourseReg) (caller ao : AccountId) (oc ac : CourseId)
      (proposals ps2 : List CourseRegistrationSwapProposal)
      (fp : CourseRegistrationSwapProposal),
      Mapping.get s.swaps oc = some proposals →
      positionRemove (fun prop => decide (prop.offer.owner = caller)) proposals
        = some (fp, ps2) →
      positionRemove (fun c => decide (c.owner = ao ∧ c.course_id = ac))
        fp.counter_offers = none →
      (s.accept_counter_offer caller oc ac ao).1 = .error .NoProposedSwap ∧
      (s.accept_counter_offer caller oc ac ao).2.swaps = Mapping.insert s.swaps oc ps2) ∧
    (∀ (s : CourseReg) (caller ao : AccountId) (oc ac : CourseId)
      (proposals ps2 : List CourseRegistrationSwapProposal)
      (fp : CourseRegistrationSwapProposal),
      (s.accept_counter_offer caller oc ac ao).1 = .ok () →
      Mapping.get s.swaps oc = some proposals →
      positionRemove (fun prop => decide (prop.offer.owner = caller)) proposals
        = some (fp, ps2) →
      (s.accept_counter_offer caller oc ac ao).2.swaps = Mapping.insert s.swaps oc ps2 ∧
      (∀ t ∈ fp.counter_offers,
        t ≠ ⟨caller, ac⟩ → t ≠ ⟨ao, oc⟩ →
        (∀ regs, Mapping.get s.registrations t.owner = some regs → t ∉ regs) →
        ∀ regs2, Mapping.get (s.accept_counter_offer caller oc ac ao).2.registrations
          t.owner = some regs2 → t ∉ regs2)) := by
  constructor
  · intro s caller ao oc ac proposals ps2 fp hs hp hcnone
    have hacc : s.accept_counter_offer caller oc ac ao
        = (.error .NoProposedSwap, { s with swaps := Mapping.insert s.swaps oc ps2 }) := by
      simp only [CourseReg.accept_counter_offer]
      rw [hs]
      dsimp only
      rw [hp]
      dsimp only
      rw [hcnone]
    rw [hacc]
    exact ⟨rfl, rfl⟩
  · intro s caller ao oc ac proposals ps2 fp h hs hp
    cases hc : positionRemove (fun c => decide (c.owner = ao ∧ c.course_id = ac))
        fp.counter_offers with
    | none =>
      simp only [CourseReg.accept_counter_offer] at h
      rw [hs] at h
      dsimp only at h
      rw [hp] at h
      dsimp only at h
      rw [hc] at h
      simp at h
    | some fcr =>
      obtain ⟨fc, rest⟩ := fcr
      have hfcao : fc.owner = ao := by
        obtain ⟨l1, l2, -, -, hx, -⟩ := positionRemove_eq_some hc
        simp only [decide_eq_true_eq] at hx
        exact hx.1
      have heval := accept_eval s _ caller ao oc ac proposals ps2 fp fc rest rfl hs hp hc
      rw [heval]
      dsimp only
      constructor
      · rw [add_registration_swaps, add_registration_swaps]
      · intro t ht hne1 hne2 hbefore regs2 hg
        have hmid : ∀ regs, Mapping.get
            (({ s with swaps := Mapping.insert s.swaps oc ps2 }).add_registration
              ac caller).registrations t.owner = some regs → t ∉ regs :=
          add_registration_mem hne1 hbefore
        exact add_registration_mem
          (by intro hh; rw [hfcao] at hh; exact hne2 hh) hmid regs2 hg

/-- C5 witness: both parts of the amended claim at concrete states, the
second with a proposal carrying a second counter-offer `⟨3, 11⟩` that stays
out of account 3's registration list after the acceptance. -/
theorem claim_C5_escrow_stranded_witness :
    ((c5w1.accept_counter_offer 1 10 11 2).1 = .error .NoProposedSwap ∧
     (c5w1.accept_counter_offer 1 10 11 2).2.swaps = Mapping.insert c5w1.swaps 10 []) ∧
    ((c5w2.accept_counter_offer 1 10 11 2).2.swaps = Mapping.insert c5w2.swaps 10 [] ∧
     (∀ t ∈ (⟨⟨1, 10⟩, [⟨2, 11⟩, ⟨3, 11⟩]⟩ :
          CourseRegistrationSwapProposal).counter_offers,
       t ≠ ⟨1, 11⟩ → t ≠ ⟨2, 10⟩ →
       (∀ regs, Mapping.get c5w2.registrations t.owner = some regs → t ∉ regs) →
       ∀ regs2, Mapping.get (c5w2.accept_counter_offer 1 10 11 2).2.registrations
         t.owner = some regs2 → t ∉ regs2)) :=
  ⟨claim_C5_escrow_stranded.1 c5w1 1 2 10 11 [⟨⟨1, 10⟩, []⟩] [] ⟨⟨1, 10⟩, []⟩
     (by decide) (by decide) (by decide),
   claim_C5_escrow_stranded.2 c5w2 1 2 10 11 [⟨⟨1, 10⟩, [⟨2, 11⟩, ⟨3, 11⟩]⟩] []
     ⟨⟨1, 10⟩, [⟨2, 11⟩, ⟨3, 11⟩]⟩ (by decide) (by decide) (by decide)⟩

/-- C5 counterexample to the claim as stated: both states below are reachable
from a fresh contract. Before the first acceptance, account 1's proposal on
course 10 escrows two counter-offers, `⟨2, 11⟩` and `⟨3, 11⟩`; account 1
accepts `⟨2, 11⟩`, and immediately afterwards account 3's registrations no
longer show `⟨3, 11⟩`. But in the subsequent reachable state `c5k` (account 3
proposes a swap on course 12, account 4 registers to course 11 and counters
with it, account 3 accepts), `get_own_registrations` for account 3 again
returns a `⟨3, 11⟩` token — so the escrowed token value is not "never again
returned ... in any subsequent reachable state". -/
theorem claim_C5_counterexample :
    Reachable c5g ∧ Reachable c5k ∧
    Mapping.get c5f.swaps 10 = some [⟨⟨1, 10⟩, [⟨2, 11⟩, ⟨3, 11⟩]⟩] ∧
    (c5f.accept_counter_offer 1 10 11 2).1 = .ok () ∧
    c5g.get_own_registrations 3 = .ok [⟨3, 12⟩] ∧
    (c5j.accept_counter_offer 3 12 11 4).1 = .ok () ∧
    c5k.get_own_registrations 3 = .ok [⟨3, 11⟩] := by
  have h0 : Reachable c5a := Reachable.init 0
  have h1 := h0.step (Step.admit_student c5a 0 1)
  have h2 := h1.step (Step.admit_student _ 0 2)
  have h3 := h2.step (Step.admit_student _ 0 3)
  have h4 := h3.step (Step.admit_student _ 0 4)
  have h5 := h4.step (Step.create _ 0 10 10 100)
  have h6 := h5.step (Step.create _ 0 11 10 100)
  have h7 := h6.step (Step.create _ 0 12 10 100)
  have h8 := h7.step (Step.register _ 1 0 10)
  have h9 := h8.step (Step.register _ 2 0 11)
  have h10 := h9.step (Step.register _ 3 0 11)
  have h11 := h10.step (Step.register _ 3 0 12)
  have h12 := h11.step (Step.propose _ 1 10)
  have h13 := h12.step (Step.counter _ 2 10 1 11)
  have h14 := h13.step (Step.counter _ 3 10 1 11)
  have h15 := h14.step (Step.accept _ 1 10 11 2)
  have h16 := h15.step (Step.propose _ 3 12)
  have h17 := h16.step (Step.register _ 4 0 11)
  have h18 := h17.step (Step.counter _ 4 12 3 11)
  have h19 := h18.step (Step.accept _ 3 12 11 4)
  exact ⟨h15, h19, by decide, by decide, by decide, by decide, by decide⟩

end course_reg
